import Mathlib

/-!
Shallow embedding of the checksum-based validation and canonicalization core of
the zellige library (Moroccan identifier validators/formatters): the ICE
validator (`src/validators/ice.ts`), the ICE formatter (`src/formatters/ice.ts`)
and the RIB/IBAN bank validators (`src/validators/bank.ts`, present in two
variants in the tree).  JavaScript strings are modelled as Lean `String`/
`List Char`, JS numbers reaching the checksum arithmetic are exact in the
ranges exercised (all below 2^53), so `Nat` models them faithfully.
-/

namespace Zellige

/-- JS runtime values that can be handed to the validators through their
dynamically typed entry points: a string, a number, a boolean, `null`,
`undefined`, or a plain object (one without a `replace` method). -/
inductive JSValue where
  | str (s : String)
  | num (n : Int)
  | boolean (b : Bool)
  | null
  | undef
  | obj
deriving DecidableEq

/-- `typeof v === 'string'`. -/
def JSValue.isString : JSValue → Bool
  | .str _ => true
  | _ => false

/-- A JS exception escaping a library function (only `TypeError` is ever
thrown by the embedded entry points; the message is kept). -/
inductive JSErr where
  | typeError (msg : String)
deriving DecidableEq

/-- Numeric value of a decimal digit character. -/
def digitVal (c : Char) : Nat := c.toNat - 48

/-- Value of a decimal digit string, most significant digit first.  Agrees
with JS `BigInt`/`parseInt` on strings made of ASCII digits (and with
`BigInt("") = 0` on the empty string). -/
def digitsToNat (l : List Char) : Nat := l.foldl (fun a c => a * 10 + digitVal c) 0

/-- The ASCII part of the JS `\s` character class. -/
def isJsSpace (c : Char) : Bool :=
  c = ' ' || c = '\t' || c = '\n' || c = '\r' || c = '\x0b' || c = '\x0c'

/-- Modelled from the spec: `src/constants/ice.ts` is not in the source tree;
spec §3 fixes the ICE layout as 9 (company) + 4 (establishment) + 2 (control)
= 15 digits total. -/
def ICE_LENGTH : Nat := 15

/-- Modelled from the spec: company segment width (spec §3, §6). -/
def COMPANY_LENGTH : Nat := 9

/-- Modelled from the spec: establishment segment width (spec §3, §6). -/
def ESTABLISHMENT_LENGTH : Nat := 4

/-- Modelled from the spec: control segment width (spec §3, §6). -/
def CONTROL_LENGTH : Nat := 2

/-- `sanitizeICE` from `src/validators/ice.ts`: `ice.replace(/\D/g, '')`. -/
def sanitizeICE (ice : String) : String := ⟨ice.data.filter Char.isDigit⟩

/-- JS `s.padStart(2, '0')`. -/
def padStart2 (s : String) : String :=
  if s.length < 2 then ⟨List.replicate (2 - s.length) '0' ++ s.data⟩ else s

/-- JS `s.slice(-n)`: the last `n` characters (the whole string when it is
shorter than `n`). -/
def sliceLast (n : Nat) (s : String) : String := ⟨s.data.drop (s.data.length - n)⟩

/-- `calculateControl` from `src/validators/ice.ts`:
strip the control digits when the input has the full 15-digit length
(`ice.slice(0, -CONTROL_LENGTH)`), interpret the payload as an integer
(`BigInt(payload)`), reduce mod 97 and zero-pad to two characters.
`BigInt` would throw on strings holding non-digits; every call site in this
development (as in every reachable path of `validateICE`) passes a digit-only
payload, where `BigInt` agrees with `digitsToNat` (note `BigInt("") = 0`). -/
def calculateControl (ice : String) : String :=
  let payload :=
    if ice.length = ICE_LENGTH then (⟨ice.data.take (ice.data.length - CONTROL_LENGTH)⟩ : String)
    else ice
  let control := digitsToNat payload.data % 97
  padStart2 (Nat.repr control)

/-- `validateControl` from `src/validators/ice.ts` (its `typeof` guard only
concerns non-string arguments, which no claim exercises):
`calculateControl(ice) === ice.slice(-CONTROL_LENGTH)`. -/
def validateControl (ice : String) : Bool :=
  calculateControl ice == sliceLast CONTROL_LENGTH ice

/-- The `ICEValidationErrorCode` enum of `src/validators/ice.ts`. -/
inductive ICECode where
  | INVALID_INPUT_TYPE
  | INVALID_LENGTH
  | NON_NUMERIC_CHARACTERS
  | INVALID_CONTROL
deriving DecidableEq

/-- `ICEComponents` of `src/types/ice.ts`. -/
structure ICEComponents where
  company : String
  establishment : String
  control : String
deriving DecidableEq

/-- The `details` payloads attached to `ICEValidationException`s in
`src/validators/ice.ts` (each field is present only at the throw sites that
set it). -/
structure ICEErrorDetails where
  sanitized : Option String := none
  receivedLength : Option Nat := none
  calculatedControl : Option String := none
  providedControl : Option String := none
deriving DecidableEq

/-- `ICEValidationError` of `src/types/ice.ts`. -/
structure ICEValidationError where
  code : ICECode
  message : String
  details : Option ICEErrorDetails := none
deriving DecidableEq

/-- `ICEValidationResult` of `src/types/ice.ts`. -/
structure ICEValidationResult where
  isValid : Bool
  sanitized : String
  components : Option ICEComponents := none
  error : Option ICEValidationError := none
deriving DecidableEq

/-- The regex test `/^\d+$/.test(s)`. -/
def regexAllDigitsPlus (s : String) : Bool := !s.data.isEmpty && s.data.all Char.isDigit

/-- `validateICE` of `src/validators/ice.ts` on string input: sanitize, check
length, check the digit regex, slice components, verify the control digits;
each failing check throws an `ICEValidationException` which the surrounding
`try/catch` turns into an `isValid: false` result whose `sanitized` field is
recovered from the exception's details (`error.details?.sanitized || ''`,
which is the sanitized string at every throw site below). -/
def validateICEstr (ice : String) : ICEValidationResult :=
  let sanitized := sanitizeICE ice
  if sanitized.length ≠ ICE_LENGTH then
    { isValid := false, sanitized := sanitized,
      error := some { code := .INVALID_LENGTH,
                      message := "ICE must be exactly 15 digits",
                      details := some { sanitized := some sanitized,
                                        receivedLength := some sanitized.length } } }
  else if !(regexAllDigitsPlus sanitized) then
    { isValid := false, sanitized := sanitized,
      error := some { code := .NON_NUMERIC_CHARACTERS,
                      message := "ICE must contain only numeric characters",
                      details := some { sanitized := some sanitized } } }
  else
    let components : ICEComponents :=
      { company := ⟨sanitized.data.take COMPANY_LENGTH⟩,
        establishment := ⟨(sanitized.data.drop COMPANY_LENGTH).take ESTABLISHMENT_LENGTH⟩,
        control := ⟨(sanitized.data.drop (COMPANY_LENGTH + ESTABLISHMENT_LENGTH)).take
                      (ICE_LENGTH - (COMPANY_LENGTH + ESTABLISHMENT_LENGTH))⟩ }
    if !(validateControl sanitized) then
      { isValid := false, sanitized := sanitized,
        error := some { code := .INVALID_CONTROL,
                        message := "Invalid ICE control",
                        details := some { sanitized := some sanitized,
                                          calculatedControl := some (calculateControl sanitized),
                                          providedControl := some components.control } } }
    else
      { isValid := true, sanitized := sanitized, components := some components }

/-- `validateICE` of `src/validators/ice.ts` on an arbitrary JS value: on a
non-string, `sanitizeICE`'s `.replace` call throws a `TypeError`, which the
generic arm of the `catch` converts into the fallback
`INVALID_INPUT_TYPE` result with `sanitized: ''`. -/
def validateICE (input : JSValue) : ICEValidationResult :=
  match input with
  | .str s => validateICEstr s
  | _ =>
    { isValid := false, sanitized := "",
      error := some { code := .INVALID_INPUT_TYPE,
                      message := "Unexpected validation error" } }

/-- `isValidICE` of `src/validators/ice.ts`. -/
def isValidICE (ice : JSValue) : Bool := (validateICE ice).isValid

/-- `validateICE` viewed at the JS exception level: its internal `try/catch`
swallows every exception, so the call always returns normally. -/
def validateICEjs (input : JSValue) : Except JSErr ICEValidationResult :=
  .ok (validateICE input)

/-- `isValidICE` viewed at the JS exception level. -/
def isValidICEjs (ice : JSValue) : Except JSErr Bool := .ok (isValidICE ice)

/-- The fields of `BankDetails` (`src/types/bank.ts`) consumed by the
validators.  The `RegExp` fields are modelled as string predicates; the
fields not read by any embedded code path (`accountFormat`, `status`,
`example`, `branches`) are omitted. -/
structure BankDetails where
  code : String
  name : String
  swift : String
  active : Bool
  ribLength : Nat
  ribRegex : String → Bool
  ibanRegex : String → Bool

/-- JS `parseInt(s, 10)` restricted to the shapes reachable here: the leading
run of digits is parsed, `NaN` (no digits at all) becomes `none`.
(`parseInt` additionally skips leading whitespace and an optional sign, but
every call site below receives strings already stripped of whitespace and
hyphens, and on every path that matters they are digit-only.) -/
def parseIntJS (l : List Char) : Option Nat :=
  let ds := l.takeWhile Char.isDigit
  if ds.isEmpty then none else some (digitsToNat ds)

/-- Fuel-driven form of the RIB chunking loop (the fuel only serves
structural recursion; it never runs out when it is at least the list
length). -/
def chunk7Fuel : Nat → List Char → List (List Char)
  | _, [] => []
  | 0, _ :: _ => []
  | fuel + 1, a :: rest => (a :: rest).take 7 :: chunk7Fuel fuel ((a :: rest).drop 7)

/-- The chunking loop of `isValidRIB`:
`for (let i = 0; i < payload.length; i += 7) chunks.push(payload.slice(i, i + 7))`. -/
def chunk7 (l : List Char) : List (List Char) := chunk7Fuel l.length l

/-- Fuel-driven decimal digit counter (structural in the fuel). -/
def numDigitsAux : Nat → Nat → Nat
  | 0, _ => 1
  | fuel + 1, n => if n < 10 then 1 else 1 + numDigitsAux fuel (n / 10)

/-- Number of characters of JS `n.toString()` for a non-negative integer `n`:
the count of decimal digits of the value (one for `0`) — leading zeros of the
chunk the value was parsed from are gone.  The fuel 64 covers every
`n < 10^64`, far beyond the `< 2^53` values exact JS number arithmetic can
produce (the chunks here are parsed from at most 7 characters, so they stay
below 10^7). -/
def numDigitsJS (n : Nat) : Nat := numDigitsAux 64 n

/-- The MOD-97 folding loop of `isValidRIB`:
`remainder = (remainder * Math.pow(10, chunk.toString().length) + chunk) % 97`.
A `NaN` chunk (`none`) poisons the remainder, and the final key comparison
against `NaN` is false — propagated here through `Option`.  All intermediate
JS numbers are below 2^53, so the float arithmetic is exact and `Nat` is
faithful. -/
def foldChunksJS (chunks : List (Option Nat)) : Option Nat :=
  chunks.foldl
    (fun acc oc =>
      match acc, oc with
      | some r, some c => some ((r * 10 ^ numDigitsJS c + c) % 97)
      | _, _ => none)
    (some 0)

/-- `rib.replace(/[\s-]/g, '')` from `isValidRIB`. -/
def ribClean (rib : String) : List Char :=
  rib.data.filter (fun c => !(isJsSpace c || c == '-'))

/-- `cleanRIB.slice(0, -2)`: the RIB payload without its 2-digit key. -/
def ribPayload (rib : String) : List Char :=
  (ribClean rib).take ((ribClean rib).length - 2)

/-- `cleanRIB.slice(-2)`: the characters of the RIB key. -/
def ribKeyChars (rib : String) : List Char :=
  (ribClean rib).drop ((ribClean rib).length - 2)

/-- The parsed 7-character chunks of the RIB payload. -/
def ribChunks (rib : String) : List (Option Nat) :=
  (chunk7 (ribPayload rib)).map parseIntJS

/-- The remainder the code's chunked fold computes over the RIB payload. -/
def ribPayloadFold (rib : String) : Option Nat := foldChunksJS (ribChunks rib)

/-- The remainder the code's chunked fold computes when re-run over the full
cleaned RIB (payload with the 2-digit key still appended). -/
def ribFullFold (rib : String) : Option Nat :=
  foldChunksJS ((chunk7 (ribClean rib)).map parseIntJS)

/-- The structural prefix of `isValidRIB` (`src/validators/bank.ts`, both
variants): clean, look the leading 3 characters up among the active banks,
check the bank-specific length and regex. -/
def ribStructOk (banks : List BankDetails) (rib : String) : Bool :=
  let clean := ribClean rib
  let bankCode : String := ⟨clean.take 3⟩
  match banks.find? (fun b => b.code == bankCode && b.active) with
  | none => false
  | some bank => clean.length == bank.ribLength && bank.ribRegex ⟨clean⟩

/-- `isValidRIB` of `src/validators/bank.ts` on string input (the checksum
logic is identical in both variants of the file): after the structural
checks, parse the trailing 2-digit key, fold the payload chunks, and compare
the key against `(97 - remainder) % 97`. -/
def isValidRIBstr (banks : List BankDetails) (rib : String) : Bool :=
  let clean := ribClean rib
  let bankCode : String := ⟨clean.take 3⟩
  match banks.find? (fun b => b.code == bankCode && b.active) with
  | none => false
  | some bank =>
    if clean.length ≠ bank.ribLength then false
    else if !(bank.ribRegex ⟨clean⟩) then false
    else
      match parseIntJS (ribKeyChars rib), ribPayloadFold rib with
      | some actualKey, some remainder => (97 - remainder) % 97 == actualKey
      | _, _ => false

/-- `iban.replace(/\s/g, '').toUpperCase()` from `isValidIBAN`. -/
def ibanClean (iban : String) : List Char :=
  (iban.data.filter (fun c => !isJsSpace c)).map Char.toUpper

/-- The regex test `/^MA\d{26}$/.test(s)`. -/
def ibanFormatOk (clean : List Char) : Bool :=
  clean.length == 28 && decide (clean.take 2 = ['M', 'A']) && (clean.drop 2).all Char.isDigit

/-- The rearrangement and letter substitution of `isValidIBAN`: move the
first 4 characters to the end, keep digits, and replace every other character
`c` by the decimal string of `c.charCodeAt(0) - 55` (so `A` becomes `10`,
..., `M` becomes `22`). -/
def ibanNumeric (clean : List Char) : List Char :=
  (clean.drop 4 ++ clean.take 4).flatMap
    (fun c => if c.isDigit then [c] else (Nat.repr (c.toNat - 55)).data)

/-- The digit-by-digit MOD-97 loop of `isValidIBAN`:
`remainder = (remainder * 10 + parseInt(numeric[i])) % 97`.  After the
`/^MA\d{26}$/` test every character of the numeric string is a digit, where
`parseInt` of the 1-character string is its digit value. -/
def mod97Fold (digits : List Char) : Nat :=
  digits.foldl (fun r c => (r * 10 + digitVal c) % 97) 0

/-- `isValidIBAN` of `src/validators/bank.ts` on string input (identical in
both variants): clean, match the Moroccan format, look up the active bank by
the characters at offsets 4-6, check the bank-specific regex, and require the
MOD 97-10 remainder of the rearranged numeric string to be 1. -/
def isValidIBANstr (banks : List BankDetails) (iban : String) : Bool :=
  let clean := ibanClean iban
  if !(ibanFormatOk clean) then false
  else
    let bankCode : String := ⟨(clean.drop 4).take 3⟩
    match banks.find? (fun b => b.code == bankCode && b.active) with
    | none => false
    | some bank =>
      if !(bank.ibanRegex ⟨clean⟩) then false
      else mod97Fold (ibanNumeric clean) == 1

/-- `isValidRIB` in the exception-wrapped variant of `src/validators/bank.ts`
(the one whose whole body sits in a `try` block): on a non-string the
`.replace` call throws a `TypeError`, which the catch-all converts to
`false`. -/
def isValidRIB_v016 (banks : List BankDetails) (v : JSValue) : Bool :=
  match v with
  | .str s => isValidRIBstr banks s
  | _ => false

/-- `isValidIBAN` in the exception-wrapped variant: the `typeof` guard throws
a `BankValidationException`, which the catch converts to `false`. -/
def isValidIBAN_v016 (banks : List BankDetails) (v : JSValue) : Bool :=
  match v with
  | .str s => isValidIBANstr banks s
  | _ => false

/-- The exception-wrapped `isValidRIB` at the JS exception level: it always
returns normally. -/
def isValidRIB_v016js (banks : List BankDetails) (v : JSValue) : Except JSErr Bool :=
  .ok (isValidRIB_v016 banks v)

/-- The exception-wrapped `isValidIBAN` at the JS exception level. -/
def isValidIBAN_v016js (banks : List BankDetails) (v : JSValue) : Except JSErr Bool :=
  .ok (isValidIBAN_v016 banks v)

/-- `isValidRIB` in the unwrapped variant of `src/validators/bank.ts` (the
one without a `try/catch`): `rib.replace(/[\s-]/g, '')` throws a `TypeError`
on a non-string argument, and nothing catches it. -/
def isValidRIB_v017js (banks : List BankDetails) (v : JSValue) : Except JSErr Bool :=
  match v with
  | .str s => .ok (isValidRIBstr banks s)
  | _ => .error (.typeError "rib.replace is not a function")

/-- `isValidIBAN` in the unwrapped variant: its `typeof` guard deliberately
throws `TypeError('IBAN must be a string')` (documented with `@throws`). -/
def isValidIBAN_v017js (banks : List BankDetails) (v : JSValue) : Except JSErr Bool :=
  match v with
  | .str s => .ok (isValidIBANstr banks s)
  | _ => .error (.typeError "IBAN must be a string")

/-- Modelled from the spec: `src/constants/banks.ts` (the `MOROCCAN_BANKS`
table) is not in the source tree.  Spec §6 fixes the lookup interface
(`{name, swift, ribLength, ribRegex, ibanRegex, active}`); the repository's
tests pin bank code `007` to Attijariwafa Bank with SWIFT `BCMAMAMC` and a
24-digit RIB (`007000000000000000000149` is valid), and the `active : bool`
field implies entries may be inactive, so the model also carries one inactive
placeholder entry (code `093`) to exercise the active-bank filter. -/
def attijariwafaBank : BankDetails :=
  { code := "007", name := "Attijariwafa Bank", swift := "BCMAMAMC", active := true,
    ribLength := 24,
    ribRegex := fun s =>
      s.length == 24 && decide (s.data.take 3 = ['0', '0', '7']) && s.data.all Char.isDigit,
    ibanRegex := fun s =>
      s.length == 28 && decide (s.data.take 2 = ['M', 'A']) &&
        (s.data.drop 2).all Char.isDigit && decide ((s.data.drop 4).take 3 = ['0', '0', '7']) }

/-- Modelled from the spec: an inactive table entry (the `active : bool`
field of spec §6 implies such entries exist) used to exercise the
active-bank filter. -/
def inactivePlaceholderBank : BankDetails :=
  { code := "093", name := "Inactive placeholder bank", swift := "XXXXMAMC", active := false,
    ribLength := 24,
    ribRegex := fun s =>
      s.length == 24 && decide (s.data.take 3 = ['0', '9', '3']) && s.data.all Char.isDigit,
    ibanRegex := fun s =>
      s.length == 28 && decide (s.data.take 2 = ['M', 'A']) &&
        (s.data.drop 2).all Char.isDigit && decide ((s.data.drop 4).take 3 = ['0', '9', '3']) }

def MOROCCAN_BANKS : List BankDetails := [attijariwafaBank, inactivePlaceholderBank]

/-- `ICEFormatOptions` of `src/types/ice.ts`.  The source's `prefix` flag is
called `icePrefix` here because `prefix` is reserved in Lean; an absent
separator (or the falsy empty string) falls back to a single space at the
use site. -/
structure ICEFormatOptions where
  separator : Option String := none
  icePrefix : Bool := false
  groupCompanyDigits : Bool := false
deriving DecidableEq

/-- The `ICEFormattingErrorCode` enum of `src/formatters/ice.ts`. -/
inductive ICEFormattingErrorCode where
  | INVALID_INPUT_TYPE
  | INVALID_SEPARATOR
  | INVALID_PREFIX
  | INVALID_GROUPING
deriving DecidableEq

/-- What `formatICE` can signal instead of a formatted string: a thrown
`ICEFormattingError`, or a raw JS `TypeError` (the latter could only arise
from destructuring `validation.components!` were it `undefined`). -/
inductive ICEFormatFailure where
  | fmtError (code : ICEFormattingErrorCode) (message : String)
  | jsError (e : JSErr)
deriving DecidableEq

/-- `options.separator || ' '` from `formatICE`. -/
def resolveSeparator (options : ICEFormatOptions) : String :=
  match options.separator with
  | some s => if s = "" then " " else s
  | none => " "

/-- `formatICE` of `src/formatters/ice.ts`: validate first (throwing an
`ICEFormattingError` on an invalid ICE), destructure the components, reject a
separator longer than one character or containing a digit, optionally regroup
the 9-digit company segment into three 3-digit groups, join the segments with
the separator, and optionally prepend the literal `ICE` label. -/
def formatICE (ice : String) (options : ICEFormatOptions) : Except ICEFormatFailure String :=
  let validation := validateICEstr ice
  if !validation.isValid then
    .error (.fmtError .INVALID_INPUT_TYPE "Cannot format invalid ICE number")
  else
    match validation.components with
    | none => .error (.jsError (.typeError "Cannot destructure components of undefined"))
    | some comps =>
      let separator := resolveSeparator options
      if separator.length > 1 || separator.data.any Char.isDigit then
        .error (.fmtError .INVALID_SEPARATOR "Separator must be a single non-digit character")
      else
        let companyPart :=
          if options.groupCompanyDigits then
            (⟨comps.company.data.take 3⟩ : String) ++ separator ++
              (⟨(comps.company.data.drop 3).take 3⟩ : String) ++ separator ++
              (⟨(comps.company.data.drop 6).take 3⟩ : String)
          else comps.company
        let formatted := companyPart ++ separator ++ comps.establishment ++ separator ++ comps.control
        let formatted := if options.icePrefix then "ICE" ++ separator ++ formatted else formatted
        .ok formatted

/-- The first `replace` of `unformatICE`: `/^ICE\D*/i` deletes a leading
case-insensitive `ICE` together with the non-digits that follow it. -/
def stripICEMarker (l : List Char) : List Char :=
  match l with
  | a :: b :: c :: rest =>
    if a.toUpper == 'I' && b.toUpper == 'C' && c.toUpper == 'E' then
      rest.dropWhile (fun ch => !ch.isDigit)
    else l
  | _ => l

/-- `unformatICE` of `src/formatters/ice.ts`: strip the case-insensitive
`ICE` marker (plus trailing non-digits), then delete every remaining
non-digit. -/
def unformatICE (ice : String) : String :=
  ⟨(stripICEMarker ice.data).filter Char.isDigit⟩

/-- `generateTestICE` of `src/validators/ice.ts` without formatting options,
with the two randomly drawn digit strings (9-digit company, 4-digit
establishment) passed explicitly: concatenate them and append the computed
control. -/
def generateTestICEraw (company establishment : String) : String :=
  let payload := company ++ establishment
  payload ++ calculateControl payload

/-- Insertion of one character at position `i` of a string (used to state
the separator-tolerance claims). -/
def insertAt (s : String) (i : Nat) (c : Char) : String :=
  ⟨s.data.take i ++ c :: s.data.drop i⟩

/-- The fold exactly as the claim words it: chunk the payload into
fixed-width 7-character chunks (the last possibly shorter) and fold
`remainder = (remainder * 10^digits_in_chunk + chunk_value) mod 97`, with
`digits_in_chunk` the number of digits in the chunk, i.e. its width.  This
definition follows the claim's words, to be compared with the source-derived
`foldChunksJS`, which raises 10 to the number of digits of the parsed chunk
value instead (leading zeros dropped). -/
def specFoldWidth (l : List Char) : Nat :=
  (chunk7 l).foldl (fun r chunk => (r * 10 ^ chunk.length + digitsToNat chunk) % 97) 0

/-- The call returned instead of throwing. -/
def returnsNormally {α : Type} (e : Except JSErr α) : Prop := ∃ r, e = Except.ok r

lemma string_mk_data (s : String) : (⟨s.data⟩ : String) = s := by
  cases s
  rfl

lemma string_length_data (s : String) : s.length = s.data.length := rfl

lemma sanitizeICE_of_digits {s : String} (h : s.data.all Char.isDigit = true) :
    sanitizeICE s = s := by
  unfold sanitizeICE
  rw [List.filter_eq_self.mpr (by simpa [List.all_eq_true] using h)]

/-- The padded decimal rendering of any value below 100 is a two-character
digit string. -/
lemma padStart2_repr_lt_100 :
    ∀ n < 100, (padStart2 (Nat.repr n)).length = 2 ∧
      (padStart2 (Nat.repr n)).data.all Char.isDigit = true := by
  decide

lemma calculateControl_append_two {p cc : String} (hp : p.length = 13) (hcc : cc.length = 2) :
    calculateControl (p ++ cc) = calculateControl p := by
  have hdata : (p ++ cc).data = p.data ++ cc.data := String.data_append p cc
  have hlen : (p ++ cc).length = 15 := by
    rw [string_length_data, hdata, List.length_append]
    rw [string_length_data] at hp hcc
    omega
  have hp13 : p.data.length = 13 := by rw [← string_length_data]; exact hp
  unfold calculateControl
  rw [if_pos (by simpa [ICE_LENGTH] using hlen), if_neg (by simp [ICE_LENGTH, hp])]
  have htake : (p ++ cc).data.take ((p ++ cc).data.length - CONTROL_LENGTH) = p.data := by
    rw [hdata]
    have : (p.data ++ cc.data).length - CONTROL_LENGTH = 13 := by
      rw [List.length_append, hp13, CONTROL_LENGTH]
      rw [string_length_data] at hcc
      omega
    rw [this, List.take_left' hp13]
  rw [htake]

/-- On a 15-character digit string `validateICEstr` validates, and its
verdict is exactly the control check. -/
lemma validateICEstr_isValid_of_digits {s : String} (h15 : s.length = 15)
    (hd : s.data.all Char.isDigit = true) :
    (validateICEstr s).isValid = validateControl s := by
  unfold validateICEstr
  rw [sanitizeICE_of_digits hd]
  rw [if_neg (by simp [h15, ICE_LENGTH])]
  have hne : s.data ≠ [] := by
    intro hnil
    rw [string_length_data, hnil] at h15
    simp at h15
  rw [if_neg (by simp [regexAllDigitsPlus, hd, hne])]
  cases hv : validateControl s with
  | true => simp [hv]
  | false => simp [hv]

/-- On a 15-character digit string `calculateControl` of the whole string
agrees with `calculateControl` of its 13-character payload. -/
lemma calculateControl_take_13 {s : String} (h15 : s.length = 15) :
    calculateControl s = calculateControl ⟨s.data.take 13⟩ := by
  have hlen : s.data.length = 15 := by rw [← string_length_data]; exact h15
  unfold calculateControl
  rw [if_pos (by simpa [ICE_LENGTH] using h15)]
  rw [if_neg (by simp [ICE_LENGTH, string_length_data, List.length_take, hlen])]
  have : s.data.length - CONTROL_LENGTH = 13 := by rw [hlen]; rfl
  rw [this]

/-- C1: for every 15-character string of digits, `validateICE` is valid iff
`calculateControl` of the first 13 digits equals the last 2 characters; in
particular `validateICE("123456789000060")` is valid with components
company `123456789`, establishment `0000`, control `60`. -/
theorem c1_ice_validity_iff_checksum :
    (∀ s : String, s.length = 15 → s.data.all Char.isDigit = true →
      ((validateICEstr s).isValid = true ↔
        calculateControl ⟨s.data.take 13⟩ = ⟨s.data.drop 13⟩)) ∧
    validateICEstr "123456789000060" =
      { isValid := true, sanitized := "123456789000060",
        components := some { company := "123456789", establishment := "0000", control := "60" } } := by
  constructor
  · intro s h15 hd
    rw [validateICEstr_isValid_of_digits h15 hd]
    unfold validateControl
    rw [calculateControl_take_13 h15]
    have hlen : s.data.length = 15 := by rw [← string_length_data]; exact h15
    have hslice : sliceLast CONTROL_LENGTH s = ⟨s.data.drop 13⟩ := by
      unfold sliceLast
      rw [hlen]
      rfl
    rw [hslice, beq_iff_eq]
  · decide

/-- C1 witness: the general statement applied at `123456789000060`. -/
theorem c1_witness :
    ("123456789000060" : String).length = 15 ∧
    ("123456789000060" : String).data.all Char.isDigit = true ∧
    ((validateICEstr "123456789000060").isValid = true ↔
      calculateControl ⟨("123456789000060" : String).data.take 13⟩ =
        ⟨("123456789000060" : String).data.drop 13⟩) :=
  ⟨by decide, by decide, c1_ice_validity_iff_checksum.1 "123456789000060" (by decide) (by decide)⟩

/-- C6: `calculateControl` gives the same result on a 13-digit payload with a
2-digit control still attached as on the bare payload, and concretely both
`123456789000131` and `1234567890001` yield `61`. -/
theorem c6_calculate_control_strip :
    (∀ p cc : String, p.length = 13 → p.data.all Char.isDigit = true →
      cc.length = 2 → cc.data.all Char.isDigit = true →
      calculateControl (p ++ cc) = calculateControl p) ∧
    calculateControl "123456789000131" = "61" ∧
    calculateControl "1234567890001" = "61" := by
  refine ⟨fun p cc hp _ hcc _ => calculateControl_append_two hp hcc, by decide, by decide⟩

/-- C6 witness: the general statement applied at payload `1234567890001`
and control `31`. -/
theorem c6_witness :
    ("1234567890001" : String).length = 13 ∧ ("31" : String).length = 2 ∧
    calculateControl ("1234567890001" ++ "31") = calculateControl "1234567890001" :=
  ⟨by decide, by decide,
    c6_calculate_control_strip.1 "1234567890001" "31" (by decide) (by decide) (by decide) (by decide)⟩

/-- C7: every value `generateTestICE` builds from drawn digit strings (9-digit
company, 4-digit establishment, computed control appended) passes
`validateICE`. -/
theorem c7_generator_soundness :
    ∀ company establishment : String,
      company.length = 9 → company.data.all Char.isDigit = true →
      establishment.length = 4 → establishment.data.all Char.isDigit = true →
      (validateICEstr (generateTestICEraw company establishment)).isValid = true := by
  intro company establishment hc hcd he hed
  set payload := company ++ establishment with hpayload
  have hpdata : payload.data = company.data ++ establishment.data := String.data_append _ _
  have hplen : payload.data.length = 13 := by
    rw [hpdata, List.length_append]
    rw [string_length_data] at hc he
    omega
  have hpd : payload.data.all Char.isDigit = true := by
    rw [hpdata, List.all_append, hcd, hed]
    rfl
  have hmod : digitsToNat payload.data % 97 < 100 := by
    have h97 : digitsToNat payload.data % 97 < 97 := Nat.mod_lt _ (by omega)
    omega
  have hctrl := padStart2_repr_lt_100 (digitsToNat payload.data % 97) hmod
  set control := calculateControl payload with hcontrol
  have hceq : control = padStart2 (Nat.repr (digitsToNat payload.data % 97)) := by
    rw [hcontrol]
    unfold calculateControl
    rw [if_neg (by simp [ICE_LENGTH, string_length_data, hplen])]
  have hclen : control.data.length = 2 := by
    rw [hceq, ← string_length_data]
    exact hctrl.1
  have hcd2 : control.data.all Char.isDigit = true := by
    rw [hceq]
    exact hctrl.2
  set s := payload ++ control with hs
  have hsdata : s.data = payload.data ++ control.data := String.data_append _ _
  have hslen : s.length = 15 := by
    rw [string_length_data, hsdata, List.length_append, hplen, hclen]
  have hsd : s.data.all Char.isDigit = true := by
    rw [hsdata, List.all_append, hpd, hcd2]
    rfl
  show (validateICEstr s).isValid = true
  rw [validateICEstr_isValid_of_digits hslen hsd]
  unfold validateControl
  have htake : calculateControl s = control := by
    unfold calculateControl
    rw [if_pos (by simpa [ICE_LENGTH] using hslen)]
    have hlen15 : s.data.length = 15 := by rw [← string_length_data]; exact hslen
    have h13 : s.data.length - CONTROL_LENGTH = 13 := by rw [hlen15]; rfl
    rw [h13, hsdata, List.take_left' hplen, hceq]
  have hdrop : sliceLast CONTROL_LENGTH s = control := by
    unfold sliceLast
    have hlen15 : s.data.length = 15 := by rw [← string_length_data]; exact hslen
    have h13 : s.data.length - CONTROL_LENGTH = 13 := by rw [hlen15]; rfl
    rw [h13, hsdata, List.drop_left' hplen]
  rw [htake, hdrop, beq_self_eq_true]

/-- C7 witness: the soundness statement applied at company `123456789`,
establishment `0000` (yielding the valid ICE `123456789000060`). -/
theorem c7_witness :
    ("123456789" : String).length = 9 ∧ ("0000" : String).length = 4 ∧
    (validateICEstr (generateTestICEraw "123456789" "0000")).isValid = true :=
  ⟨by decide, by decide,
    c7_generator_soundness "123456789" "0000" (by decide) (by decide) (by decide) (by decide)⟩

/-- C9: every `validateICE` result satisfies the `ValidationResult`
invariant: `isValid` is `true` exactly when `components` is present and
`error` absent, and `false` exactly when `error` is present and `components`
absent (the `sanitized` field is a `String` by construction, populated on
every branch). -/
theorem c9_result_invariant :
    ∀ v : JSValue,
      ((validateICE v).isValid = true ↔
        ((validateICE v).components.isSome = true ∧ (validateICE v).error.isNone = true)) ∧
      ((validateICE v).isValid = false ↔
        ((validateICE v).error.isSome = true ∧ (validateICE v).components.isNone = true)) := by
  intro v
  cases v with
  | str s =>
    have hred : validateICE (JSValue.str s) = validateICEstr s := rfl
    rw [hred]
    simp only [validateICEstr]
    split_ifs <;> simp
  | num n => exact ⟨by simp [validateICE], by simp [validateICE]⟩
  | boolean b => exact ⟨by simp [validateICE], by simp [validateICE]⟩
  | null => exact ⟨by simp [validateICE], by simp [validateICE]⟩
  | undef => exact ⟨by simp [validateICE], by simp [validateICE]⟩
  | obj => exact ⟨by simp [validateICE], by simp [validateICE]⟩

/-- C10: whenever the bank lookup (leading 3 characters of the cleaned RIB,
characters 5-7 of the cleaned IBAN) finds no entry that is both matching and
active, `isValidRIB` and `isValidIBAN` reject, whatever the rest of the
identifier looks like. -/
theorem c10_inactive_bank_rejected :
    ∀ (banks : List BankDetails) (rib iban : String),
      banks.find? (fun b => b.code == (⟨(ribClean rib).take 3⟩ : String) && b.active) = none →
      banks.find?
          (fun b => b.code == (⟨((ibanClean iban).drop 4).take 3⟩ : String) && b.active) = none →
      isValidRIBstr banks rib = false ∧ isValidIBANstr banks iban = false := by
  intro banks rib iban hR hI
  constructor
  · simp only [isValidRIBstr]
    rw [hR]
  · simp only [isValidIBANstr]
    split_ifs
    · rfl
    · rw [hI]

/-- C10 witness: the RIB `093000000000000000000013` (correct 24-digit format
and correct checksum key `13` for the modelled inactive bank `093`) and an
IBAN carrying bank code `093` are both rejected. -/
theorem c10_witness :
    MOROCCAN_BANKS.find?
        (fun b => b.code == (⟨(ribClean "093000000000000000000013").take 3⟩ : String) && b.active) =
      none ∧
    MOROCCAN_BANKS.find?
        (fun b =>
          b.code == (⟨((ibanClean "MA64093000000000000000000000").drop 4).take 3⟩ : String) &&
            b.active) = none ∧
    isValidRIBstr MOROCCAN_BANKS "093000000000000000000013" = false ∧
    isValidIBANstr MOROCCAN_BANKS "MA64093000000000000000000000" = false :=
  ⟨by rfl, by rfl,
    c10_inactive_bank_rejected MOROCCAN_BANKS "093000000000000000000013"
      "MA64093000000000000000000000" (by rfl) (by rfl)⟩

/-- C4 counterexample: the unwrapped variant of `isValidIBAN` does not return
normally on the number `0` — it throws `TypeError('IBAN must be a string')`
(and the claim asserts that every validity-checking entry point returns
normally on every runtime type). -/
theorem c4_counterexample :
    isValidIBAN_v017js MOROCCAN_BANKS (JSValue.num 0) =
      Except.error (JSErr.typeError "IBAN must be a string") ∧
    ¬ returnsNormally (isValidIBAN_v017js MOROCCAN_BANKS (JSValue.num 0)) := by
  refine ⟨rfl, ?_⟩
  rintro ⟨r, hr⟩
  simp [isValidIBAN_v017js] at hr

/-- C4 amended: `validateICE`, `isValidICE` and the exception-wrapped variant
of the bank validators return normally on every runtime value; the unwrapped
variant's `isValidRIB`/`isValidIBAN` return normally exactly on string
inputs and throw a `TypeError` on every non-string input. -/
theorem c4_no_throw_amended :
    ∀ (banks : List BankDetails) (v : JSValue),
      returnsNormally (validateICEjs v) ∧
      returnsNormally (isValidICEjs v) ∧
      returnsNormally (isValidRIB_v016js banks v) ∧
      returnsNormally (isValidIBAN_v016js banks v) ∧
      (returnsNormally (isValidRIB_v017js banks v) ↔ JSValue.isString v = true) ∧
      (returnsNormally (isValidIBAN_v017js banks v) ↔ JSValue.isString v = true) := by
  intro banks v
  refine ⟨⟨_, rfl⟩, ⟨_, rfl⟩, ⟨_, rfl⟩, ⟨_, rfl⟩, ?_, ?_⟩ <;>
    cases v <;>
      simp [isValidRIB_v017js, isValidIBAN_v017js, returnsNormally, JSValue.isString]

lemma filter_insert_of_neg {p : Char → Bool} {c : Char} (hc : p c = false)
    (l : List Char) (i : Nat) :
    (l.take i ++ c :: l.drop i).filter p = l.filter p := by
  rw [List.filter_append, List.filter_cons_of_neg (by simp [hc]),
    ← List.filter_append, List.take_append_drop]

/-- `validateICEstr` only looks at its argument through `sanitizeICE`. -/
lemma validateICEstr_congr {a b : String} (h : sanitizeICE a = sanitizeICE b) :
    validateICEstr a = validateICEstr b := by
  unfold validateICEstr
  rw [h]

/-- `isValidRIBstr` only looks at its argument through `ribClean`. -/
lemma isValidRIBstr_congr (banks : List BankDetails) {a b : String}
    (h : ribClean a = ribClean b) :
    isValidRIBstr banks a = isValidRIBstr banks b := by
  unfold isValidRIBstr ribKeyChars ribPayloadFold ribChunks ribPayload
  rw [h]

/-- `isValidIBANstr` only looks at its argument through `ibanClean`. -/
lemma isValidIBANstr_congr (banks : List BankDetails) {a b : String}
    (h : ibanClean a = ibanClean b) :
    isValidIBANstr banks a = isValidIBANstr banks b := by
  unfold isValidIBANstr
  rw [h]

/-- C8 amended: `validateICE` tolerates the insertion of any of the five
separator characters (space, hyphen, slash, dot, underscore) anywhere;
`isValidRIB` tolerates only whitespace and hyphens; `isValidIBAN` tolerates
only whitespace — the other separators reach the later checks and change the
verdict in general. -/
theorem c8_separator_tolerance_amended :
    ∀ (banks : List BankDetails) (s : String) (i : Nat) (c : Char),
      ((c = ' ' ∨ c = '-' ∨ c = '/' ∨ c = '.' ∨ c = '_') →
        validateICEstr (insertAt s i c) = validateICEstr s) ∧
      ((isJsSpace c = true ∨ c = '-') →
        isValidRIBstr banks (insertAt s i c) = isValidRIBstr banks s) ∧
      (isJsSpace c = true →
        isValidIBANstr banks (insertAt s i c) = isValidIBANstr banks s) := by
  intro banks s i c
  refine ⟨fun hc => ?_, fun hc => ?_, fun hc => ?_⟩
  · apply validateICEstr_congr
    unfold sanitizeICE insertAt
    congr 1
    exact filter_insert_of_neg (by rcases hc with h | h | h | h | h <;> subst h <;> rfl) s.data i
  · apply isValidRIBstr_congr
    unfold ribClean insertAt
    apply filter_insert_of_neg
    rcases hc with h | h
    · simp [h]
    · subst h
      rfl
  · apply isValidIBANstr_congr
    unfold ibanClean insertAt
    congr 1
    exact filter_insert_of_neg (by simp [hc]) s.data i

/-- C8 witness: inserting a space leaves the ICE verdict on
`123456789000060`, the RIB verdict on `007000000000000000000149` and the
IBAN verdict on `MA64007108000779200030312071` unchanged. -/
theorem c8_witness :
    (' ' = ' ' ∨ ' ' = '-' ∨ ' ' = '/' ∨ ' ' = '.' ∨ ' ' = '_') ∧ isJsSpace ' ' = true ∧
    validateICEstr (insertAt "123456789000060" 3 ' ') = validateICEstr "123456789000060" ∧
    isValidRIBstr MOROCCAN_BANKS (insertAt "007000000000000000000149" 5 ' ') =
      isValidRIBstr MOROCCAN_BANKS "007000000000000000000149" ∧
    isValidIBANstr MOROCCAN_BANKS (insertAt "MA64007108000779200030312071" 7 ' ') =
      isValidIBANstr MOROCCAN_BANKS "MA64007108000779200030312071" :=
  ⟨Or.inl rfl, rfl,
    (c8_separator_tolerance_amended MOROCCAN_BANKS "123456789000060" 3 ' ').1 (Or.inl rfl),
    (c8_separator_tolerance_amended MOROCCAN_BANKS "007000000000000000000149" 5 ' ').2.1
      (Or.inl rfl),
    (c8_separator_tolerance_amended MOROCCAN_BANKS "MA64007108000779200030312071" 7 ' ').2.2 rfl⟩

/-- C8 counterexample: inserting a dot at the front of the valid RIB
`007000000000000000000149` flips `isValidRIB` from `true` to `false` (the
dot survives `replace(/[\s-]/g, '')` and derails the bank-code lookup), so
dot insertion is not sanitized away by every scheme's validator as the claim
states. -/
theorem c8_counterexample :
    isValidRIBstr MOROCCAN_BANKS "007000000000000000000149" = true ∧
    isValidRIBstr MOROCCAN_BANKS (insertAt "007000000000000000000149" 0 '.') = false := by
  constructor <;> rfl

lemma chunk7Fuel_irrel :
    ∀ (f₁ f₂ : Nat) (l : List Char), l.length ≤ f₁ → l.length ≤ f₂ →
      chunk7Fuel f₁ l = chunk7Fuel f₂ l := by
  intro f₁
  induction f₁ with
  | zero =>
    intro f₂ l h₁ h₂
    have hl : l = [] := List.eq_nil_of_length_eq_zero (by omega)
    subst hl
    cases f₂ <;> rfl
  | succ n ih =>
    intro f₂ l h₁ h₂
    cases l with
    | nil => cases f₂ <;> rfl
    | cons a rest =>
      cases f₂ with
      | zero => simp at h₂
      | succ m =>
        show (a :: rest).take 7 :: chunk7Fuel n ((a :: rest).drop 7) =
          (a :: rest).take 7 :: chunk7Fuel m ((a :: rest).drop 7)
        congr 1
        apply ih
        · simp only [List.length_drop, List.length_cons]
          simp only [List.length_cons] at h₁
          omega
        · simp only [List.length_drop, List.length_cons]
          simp only [List.length_cons] at h₂
          omega

lemma chunk7_eq_cons {l : List Char} (h : l ≠ []) :
    chunk7 l = l.take 7 :: chunk7 (l.drop 7) := by
  cases l with
  | nil => exact absurd rfl h
  | cons a rest =>
    show chunk7Fuel (rest.length + 1) (a :: rest) = _
    show (a :: rest).take 7 :: chunk7Fuel rest.length ((a :: rest).drop 7) = _
    congr 1
    apply chunk7Fuel_irrel
    · simp only [List.length_drop, List.length_cons]
      omega
    · simp only [List.length_drop]
      omega

lemma chunk7_append7 {a b : List Char} (ha : a.length = 7) :
    chunk7 (a ++ b) = a :: chunk7 b := by
  have hne : a ++ b ≠ [] := by
    intro h
    have := congrArg List.length h
    simp [ha] at this
  rw [chunk7_eq_cons hne, List.take_left' ha, List.drop_left' ha]

lemma chunk7_short {l : List Char} (h0 : l ≠ []) (h7 : l.length ≤ 7) :
    chunk7 l = [l] := by
  rw [chunk7_eq_cons h0, List.take_of_length_le h7, List.drop_eq_nil_of_le h7]
  rfl

/-- Every chunk of an all-digit list is a nonempty all-digit list. -/
lemma chunk7_mem {l : List Char} (hd : l.all Char.isDigit = true) :
    ∀ ch ∈ chunk7 l, ch ≠ [] ∧ ch.all Char.isDigit = true := by
  have main : ∀ (fuel : Nat) (l : List Char), l.length ≤ fuel → l.all Char.isDigit = true →
      ∀ ch ∈ chunk7Fuel fuel l, ch ≠ [] ∧ ch.all Char.isDigit = true := by
    intro fuel
    induction fuel with
    | zero =>
      intro l hlen _ ch hch
      have hl : l = [] := List.eq_nil_of_length_eq_zero (by omega)
      subst hl
      simp [chunk7Fuel] at hch
    | succ n ih =>
      intro l hlen hdig ch hch
      cases l with
      | nil => simp [chunk7Fuel] at hch
      | cons a rest =>
        rw [show chunk7Fuel (n + 1) (a :: rest) =
          (a :: rest).take 7 :: chunk7Fuel n ((a :: rest).drop 7) from rfl] at hch
        rcases List.mem_cons.mp hch with hch | hch
        · subst hch
          refine ⟨by simp, ?_⟩
          rw [List.all_eq_true] at hdig ⊢
          exact fun x hx => hdig x (List.mem_of_mem_take hx)
        · apply ih _ _ _ ch hch
          · simp only [List.length_drop, List.length_cons] at *
            omega
          · rw [List.all_eq_true] at hdig ⊢
            exact fun x hx => hdig x (List.mem_of_mem_drop hx)
  exact main l.length l (Nat.le_refl _) hd

/-- `parseInt` succeeds on a nonempty digit string and returns its value. -/
lemma parseIntJS_digits {l : List Char} (h0 : l ≠ []) (hd : l.all Char.isDigit = true) :
    parseIntJS l = some (digitsToNat l) := by
  unfold parseIntJS
  have htw : l.takeWhile Char.isDigit = l := by
    apply List.takeWhile_eq_self_iff.mpr
    intro x hx
    rw [List.all_eq_true] at hd
    exact hd x hx
  rw [htw, if_neg (by simpa [List.isEmpty_iff] using h0)]

/-- The chunked fold succeeds when every chunk parsed, and its remainder is
below 97. -/
lemma foldChunksJS_some {cs : List (Option Nat)} (h : ∀ oc ∈ cs, oc.isSome = true) :
    ∃ r, foldChunksJS cs = some r ∧ r < 97 := by
  have main : ∀ (cs : List (Option Nat)) (a : Nat), (∀ oc ∈ cs, oc.isSome = true) →
      ∃ r, cs.foldl
          (fun acc oc =>
            match acc, oc with
            | some r, some c => some ((r * 10 ^ numDigitsJS c + c) % 97)
            | _, _ => none) (some a) = some r ∧ (r = a ∨ r < 97) := by
    intro cs
    induction cs with
    | nil => exact fun a _ => ⟨a, rfl, Or.inl rfl⟩
    | cons oc rest ih =>
      intro a hmem
      have hoc : oc.isSome = true := hmem oc (List.mem_cons_self oc rest)
      rcases Option.isSome_iff_exists.mp hoc with ⟨c, hc⟩
      subst hc
      have hrest : ∀ x ∈ rest, x.isSome = true := fun x hx =>
        hmem x (List.mem_cons_of_mem _ hx)
      rcases ih ((a * 10 ^ numDigitsJS c + c) % 97) hrest with ⟨r, hr, hcase⟩
      refine ⟨r, hr, Or.inr ?_⟩
      rcases hcase with h | h
      · rw [h]
        exact Nat.mod_lt _ (by omega)
      · exact h
  rcases main cs 0 h with ⟨r, hr, hcase⟩
  exact ⟨r, hr, by rcases hcase with h | h <;> omega⟩

/-- Inversion of `ribStructOk` over the modelled table: the structural
checks pass exactly when the cleaned RIB is a 24-character digit string of
the single active bank `007`. -/
lemma ribStructOk_inv {rib : String} (h : ribStructOk MOROCCAN_BANKS rib = true) :
    (ribClean rib).length = 24 ∧ (ribClean rib).all Char.isDigit = true ∧
      attijariwafaBank.ribRegex ⟨ribClean rib⟩ = true ∧
      MOROCCAN_BANKS.find?
        (fun b => b.code == (⟨(ribClean rib).take 3⟩ : String) && b.active) =
        some attijariwafaBank := by
  simp only [ribStructOk] at h
  cases hfind : MOROCCAN_BANKS.find?
      (fun b => b.code == (⟨(ribClean rib).take 3⟩ : String) && b.active) with
  | none => rw [hfind] at h; simp at h
  | some bank =>
    rw [hfind] at h
    have hmem := List.mem_of_find?_eq_some hfind
    have hp := List.find?_some hfind
    have hbank : bank = attijariwafaBank := by
      rcases (by simpa [MOROCCAN_BANKS] using hmem : bank = attijariwafaBank ∨
          bank = inactivePlaceholderBank) with hb | hb
      · exact hb
      · rw [hb] at hp
        simp [inactivePlaceholderBank] at hp
    subst hbank
    rw [Bool.and_eq_true] at h
    have hregex := h.2
    have hparts := hregex
    simp only [attijariwafaBank] at hparts
    rw [Bool.and_eq_true, Bool.and_eq_true] at hparts
    refine ⟨?_, hparts.2, hregex, rfl⟩
    simpa [attijariwafaBank] using h.1

/-- C2 counterexample: the RIB `007000000000000000000149` passes the
structural checks and `isValidRIB` accepts it, yet its key `49` differs from
`(97 - r) mod 97 = 74` computed with the claim's fixed-width fold
(`10^digits_in_chunk` with `digits_in_chunk` the chunk's width), so the
claimed equivalence fails on it. -/
theorem c2_counterexample :
    ribStructOk MOROCCAN_BANKS "007000000000000000000149" = true ∧
    isValidRIBstr MOROCCAN_BANKS "007000000000000000000149" = true ∧
    digitsToNat (ribKeyChars "007000000000000000000149") ≠
      (97 - specFoldWidth (ribPayload "007000000000000000000149")) % 97 := by
  refine ⟨by rfl, by rfl, by decide⟩

/-- C2 amended: for every RIB passing the structural checks, `isValidRIB`
accepts iff the RIB's last two digits equal `(97 - remainder) mod 97`, where
the remainder folds the 7-character chunks with
`remainder = (remainder * 10^d + chunk_value) mod 97` and `d` the number of
decimal digits of `chunk_value` (`parseInt` drops the chunk's leading
zeros; `d = 1` when `chunk_value = 0`) — not the chunk's fixed width. -/
theorem c2_rib_checksum_iff_amended :
    ∀ rib : String, ribStructOk MOROCCAN_BANKS rib = true →
      ∃ r, ribPayloadFold rib = some r ∧
        (isValidRIBstr MOROCCAN_BANKS rib = true ↔
          digitsToNat (ribKeyChars rib) = (97 - r) % 97) := by
  intro rib hstruct
  obtain ⟨hlen, hdig, hregex, hfind⟩ := ribStructOk_inv hstruct
  have hkeylen : (ribKeyChars rib).length = 2 := by
    unfold ribKeyChars
    rw [List.length_drop, hlen]
  have hkeyne : ribKeyChars rib ≠ [] := by
    intro hnil
    rw [hnil] at hkeylen
    simp at hkeylen
  have hkeydig : (ribKeyChars rib).all Char.isDigit = true := by
    rw [List.all_eq_true] at hdig ⊢
    exact fun x hx => hdig x (List.mem_of_mem_drop hx)
  have hparse : parseIntJS (ribKeyChars rib) = some (digitsToNat (ribKeyChars rib)) :=
    parseIntJS_digits hkeyne hkeydig
  have hpaydig : (ribPayload rib).all Char.isDigit = true := by
    rw [List.all_eq_true] at hdig ⊢
    exact fun x hx => hdig x (List.mem_of_mem_take hx)
  have hchunks : ∀ oc ∈ ribChunks rib, oc.isSome = true := by
    intro oc hoc
    unfold ribChunks at hoc
    rcases List.mem_map.mp hoc with ⟨ch, hch, hoc⟩
    obtain ⟨hne, hchd⟩ := chunk7_mem hpaydig ch hch
    rw [← hoc, parseIntJS_digits hne hchd]
    rfl
  obtain ⟨r, hfold, _⟩ := foldChunksJS_some hchunks
  refine ⟨r, hfold, ?_⟩
  simp only [isValidRIBstr]
  simp only [hfind]
  rw [if_neg (by simp [attijariwafaBank, hlen]), if_neg (by simp [hregex])]
  have hfoldPay : ribPayloadFold rib = some r := hfold
  rw [hparse, hfoldPay]
  show ((97 - r) % 97 == digitsToNat (ribKeyChars rib)) = true ↔
    digitsToNat (ribKeyChars rib) = (97 - r) % 97
  rw [beq_iff_eq]
  exact eq_comm

/-- C2 witness: the amended equivalence applied at the valid RIB
`007000000000000000000149` (payload remainder 48, key `49 = (97 - 48) % 97`). -/
theorem c2_witness :
    ribStructOk MOROCCAN_BANKS "007000000000000000000149" = true ∧
    ∃ r, ribPayloadFold "007000000000000000000149" = some r ∧
      (isValidRIBstr MOROCCAN_BANKS "007000000000000000000149" = true ↔
        digitsToNat (ribKeyChars "007000000000000000000149") = (97 - r) % 97) :=
  ⟨by rfl, c2_rib_checksum_iff_amended "007000000000000000000149" (by rfl)⟩

lemma numDigitsAux_succ (f n : Nat) :
    numDigitsAux (f + 1) n = if n < 10 then 1 else 1 + numDigitsAux f (n / 10) := rfl

lemma numDigitsJS_of_lt_10 {n : Nat} (h : n < 10) : numDigitsJS n = 1 := by
  show numDigitsAux 64 n = 1
  rw [show (64 : Nat) = 63 + 1 from rfl, numDigitsAux_succ, if_pos h]

lemma numDigitsJS_of_hundreds {n : Nat} (h1 : 100 ≤ n) (h2 : n < 1000) : numDigitsJS n = 3 := by
  show numDigitsAux 64 n = 3
  rw [show (64 : Nat) = 63 + 1 from rfl, numDigitsAux_succ, if_neg (by omega)]
  rw [show (63 : Nat) = 62 + 1 from rfl, numDigitsAux_succ, if_neg (by omega)]
  rw [show (62 : Nat) = 61 + 1 from rfl, numDigitsAux_succ, if_pos (by omega)]

lemma isDigit_toNat_bounds {c : Char} (h : c.isDigit = true) :
    48 ≤ c.toNat ∧ c.toNat ≤ 57 := by
  simp only [Char.isDigit, ge_iff_le, Bool.and_eq_true, decide_eq_true_eq] at h
  exact ⟨UInt32.le_toNat_of_le (by decide) h.1, UInt32.toNat_le_of_le (by decide) h.2⟩

lemma digitVal_le_9 {c : Char} (h : c.isDigit = true) : digitVal c ≤ 9 := by
  obtain ⟨h1, h2⟩ := isDigit_toNat_bounds h
  unfold digitVal
  omega

lemma one_le_digitVal {c : Char} (h : c.isDigit = true) (h0 : c ≠ '0') :
    1 ≤ digitVal c := by
  obtain ⟨h1, h2⟩ := isDigit_toNat_bounds h
  unfold digitVal
  rcases Nat.lt_or_ge 48 c.toNat with hlt | hge
  · omega
  · exfalso
    apply h0
    apply Char.ext
    apply UInt32.toNat.inj
    show c.toNat = Char.toNat '0'
    have h0 : Char.toNat '0' = 48 := rfl
    omega

lemma digitsToNat_singleton (c : Char) : digitsToNat [c] = digitVal c := by
  simp [digitsToNat]

lemma digitsToNat_pair (a b : Char) :
    digitsToNat [a, b] = digitVal a * 10 + digitVal b := by
  simp [digitsToNat]

lemma digitsToNat_triple (a b c : Char) :
    digitsToNat [a, b, c] = digitVal a * 100 + (digitVal b * 10 + digitVal c) := by
  simp [digitsToNat]
  ring

/-- Inversion of an accepted RIB: the structural checks passed and the parsed
key equals `(97 - remainder) % 97` for the fold's remainder. -/
lemma isValidRIBstr_inv {rib : String} (h : isValidRIBstr MOROCCAN_BANKS rib = true) :
    ribStructOk MOROCCAN_BANKS rib = true ∧
      ∃ k r, parseIntJS (ribKeyChars rib) = some k ∧ ribPayloadFold rib = some r ∧
        k = (97 - r) % 97 := by
  simp only [isValidRIBstr] at h
  cases hfind : MOROCCAN_BANKS.find?
      (fun b => b.code == (⟨(ribClean rib).take 3⟩ : String) && b.active) with
  | none => rw [hfind] at h; simp at h
  | some bank =>
    simp only [hfind] at h
    by_cases hlen : (ribClean rib).length ≠ bank.ribLength
    · rw [if_pos hlen] at h
      simp at h
    · rw [if_neg hlen] at h
      by_cases hreg : (!bank.ribRegex ⟨ribClean rib⟩) = true
      · rw [if_pos hreg] at h
        simp at h
      · rw [if_neg hreg] at h
        have hregex : bank.ribRegex ⟨ribClean rib⟩ = true := by
          cases hb : bank.ribRegex (⟨ribClean rib⟩ : String) with
          | false => exact absurd (by rw [hb]; rfl) hreg
          | true => rfl
        have hstruct : ribStructOk MOROCCAN_BANKS rib = true := by
          simp only [ribStructOk]
          simp only [hfind]
          simp [not_not.mp hlen, hregex]
        refine ⟨hstruct, ?_⟩
        cases hp : parseIntJS (ribKeyChars rib) with
        | none =>
          cases hf : ribPayloadFold rib <;> simp [hp, hf] at h
        | some k =>
          cases hf : ribPayloadFold rib with
          | none => simp [hp, hf] at h
          | some r =>
            simp only [hp, hf] at h
            refine ⟨k, r, rfl, rfl, ?_⟩
            have hkr : (97 - r) % 97 = k := by simpa using h
            omega

/-- Decomposition of a cleaned 24-digit RIB into the three full chunks, the
22nd digit and the 2-digit key, together with the code's folds over payload
and full string. -/
lemma rib24_folds {rib : String} (hlen : (ribClean rib).length = 24)
    (hdig : (ribClean rib).all Char.isDigit = true) :
    ∃ s d k1 k2, s < 97 ∧
      (ribClean rib).get? 21 = some d ∧
      d.isDigit = true ∧ k1.isDigit = true ∧ k2.isDigit = true ∧
      ribKeyChars rib = [k1, k2] ∧
      ribPayloadFold rib =
        some ((s * 10 ^ numDigitsJS (digitVal d) + digitVal d) % 97) ∧
      ribFullFold rib =
        some ((s * 10 ^ numDigitsJS (digitsToNat [d, k1, k2]) +
          digitsToNat [d, k1, k2]) % 97) := by
  set L := ribClean rib with hL
  have hA : (L.take 7).length = 7 := by
    rw [List.length_take, hlen]
    omega
  have hR1 : (L.drop 7).length = 17 := by
    rw [List.length_drop, hlen]
  have hB : ((L.drop 7).take 7).length = 7 := by
    rw [List.length_take, hR1]
    omega
  have hR2 : ((L.drop 7).drop 7).length = 10 := by
    rw [List.length_drop, hR1]
  have hC : (((L.drop 7).drop 7).take 7).length = 7 := by
    rw [List.length_take, hR2]
    omega
  have hR3 : (((L.drop 7).drop 7).drop 7).length = 3 := by
    rw [List.length_drop, hR2]
  obtain ⟨d, k1, k2, hR3eq⟩ := List.length_eq_three.mp hR3
  set A := L.take 7
  set B := (L.drop 7).take 7
  set C := ((L.drop 7).drop 7).take 7
  have hdecomp : L = A ++ (B ++ (C ++ [d, k1, k2])) := by
    rw [← hR3eq]
    rw [List.take_append_drop, List.take_append_drop, List.take_append_drop]
  have hP : (A ++ (B ++ (C ++ [d]))).length = 22 := by
    simp [List.length_append, hA, hB, hC]
  have hPK : L = (A ++ (B ++ (C ++ [d]))) ++ [k1, k2] := by
    rw [hdecomp]
    simp
  have hmemdig : ∀ x ∈ L, x.isDigit = true := List.all_eq_true.mp hdig
  have hdd : d.isDigit = true := by
    apply hmemdig
    rw [hdecomp]
    simp
  have hk1d : k1.isDigit = true := by
    apply hmemdig
    rw [hdecomp]
    simp
  have hk2d : k2.isDigit = true := by
    apply hmemdig
    rw [hdecomp]
    simp
  have hAne : A ≠ [] := by
    intro hnil
    rw [hnil] at hA
    simp at hA
  have hAd : A.all Char.isDigit = true := by
    rw [List.all_eq_true]
    exact fun x hx => hmemdig x (List.mem_of_mem_take hx)
  have hBd : B.all Char.isDigit = true := by
    rw [List.all_eq_true]
    exact fun x hx => hmemdig x (List.mem_of_mem_drop (List.mem_of_mem_take hx))
  have hBne : B ≠ [] := by
    intro hnil
    rw [hnil] at hB
    simp at hB
  have hCd : C.all Char.isDigit = true := by
    rw [List.all_eq_true]
    exact fun x hx =>
      hmemdig x (List.mem_of_mem_drop (List.mem_of_mem_drop (List.mem_of_mem_take hx)))
  have hCne : C ≠ [] := by
    intro hnil
    rw [hnil] at hC
    simp at hC
  -- the key characters
  have hkey : ribKeyChars rib = [k1, k2] := by
    unfold ribKeyChars
    rw [← hL, hlen]
    show L.drop 22 = [k1, k2]
    rw [hPK, List.drop_left' hP]
  -- the payload and its chunks
  have hpayload : ribPayload rib = A ++ (B ++ (C ++ [d])) := by
    unfold ribPayload
    rw [← hL, hlen]
    show L.take 22 = _
    rw [hPK, List.take_left' hP]
  have hchunksP : chunk7 (ribPayload rib) = [A, B, C, [d]] := by
    rw [hpayload, chunk7_append7 hA, chunk7_append7 hB, chunk7_append7 hC,
      chunk7_short (by simp) (by simp)]
  have hchunksL : chunk7 L = [A, B, C, [d, k1, k2]] := by
    rw [hdecomp, chunk7_append7 hA, chunk7_append7 hB, chunk7_append7 hC,
      chunk7_short (by simp) (by simp)]
  -- the common prefix remainder
  obtain ⟨s, hs, hs97⟩ :=
    @foldChunksJS_some [parseIntJS A, parseIntJS B, parseIntJS C] (by
      intro oc hoc
      rcases (by simpa using hoc : oc = parseIntJS A ∨ oc = parseIntJS B ∨ oc = parseIntJS C)
        with h | h | h <;>
        rw [h] <;>
        first
          | rw [parseIntJS_digits hAne hAd]; rfl
          | rw [parseIntJS_digits hBne hBd]; rfl
          | rw [parseIntJS_digits hCne hCd]; rfl)
  refine ⟨s, d, k1, k2, hs97, ?_, hdd, hk1d, hk2d, hkey, ?_, ?_⟩
  · -- the 22nd character
    rw [hPK]
    rw [List.get?_append (by rw [hP]; omega)]
    have h21 : (21 : Nat) = A.length + 14 := by rw [hA]
    rw [h21, List.get?_append_right (by omega), Nat.add_sub_cancel_left]
    have h14 : (14 : Nat) = B.length + 7 := by rw [hB]
    rw [h14, List.get?_append_right (by omega), Nat.add_sub_cancel_left]
    have h7 : (7 : Nat) = C.length + 0 := by rw [hC]
    rw [h7, List.get?_append_right (by omega), Nat.add_sub_cancel_left]
    rfl
  · -- payload fold
    unfold ribPayloadFold ribChunks
    rw [hchunksP]
    show foldChunksJS
      ([parseIntJS A, parseIntJS B, parseIntJS C] ++ [parseIntJS [d]]) = _
    unfold foldChunksJS
    rw [List.foldl_append]
    have hsf : [parseIntJS A, parseIntJS B, parseIntJS C].foldl
        (fun acc oc =>
          match acc, oc with
          | some r, some c => some ((r * 10 ^ numDigitsJS c + c) % 97)
          | _, _ => none) (some 0) = some s := hs
    rw [hsf, parseIntJS_digits (by simp) (by simp [hdd]), digitsToNat_singleton]
    rfl
  · -- full fold
    unfold ribFullFold
    rw [← hL, hchunksL]
    show foldChunksJS
      ([parseIntJS A, parseIntJS B, parseIntJS C] ++ [parseIntJS [d, k1, k2]]) = _
    unfold foldChunksJS
    rw [List.foldl_append]
    have hsf : [parseIntJS A, parseIntJS B, parseIntJS C].foldl
        (fun acc oc =>
          match acc, oc with
          | some r, some c => some ((r * 10 ^ numDigitsJS c + c) % 97)
          | _, _ => none) (some 0) = some s := hs
    rw [hsf, parseIntJS_digits (by simp) (by simp [hdd, hk1d, hk2d])]
    rfl

/-- The modular identity behind the re-fold relation: appending the 2-digit
key `(97 - r) % 97` to a 22-digit payload whose last digit is nonzero makes
the code's fold of the full string `(2r) mod 97`. -/
lemma c3_key_arith :
    ∀ (s : Fin 97) (vd : Fin 10), 1 ≤ vd.val →
      (s.val * 1000 + (vd.val * 100 + (97 - (s.val * 10 + vd.val) % 97) % 97)) % 97 =
        (2 * ((s.val * 10 + vd.val) % 97)) % 97 := by
  decide

lemma two_mul_mod_97_eq_one_iff : ∀ r : Fin 97, ((2 * r.val) % 97 = 1 ↔ r.val = 49) := by
  decide

/-- C3 counterexample: `isValidRIB` accepts `007000000000000000000149`, but
re-running the same chunked fold over the full cleaned string (payload with
the key appended) yields remainder 96, not 1. -/
theorem c3_counterexample :
    isValidRIBstr MOROCCAN_BANKS "007000000000000000000149" = true ∧
    ribFullFold "007000000000000000000149" = some 96 ∧
    ribFullFold "007000000000000000000149" ≠ some 1 := by
  refine ⟨by rfl, by rfl, by decide⟩

/-- C3 amended: for every accepted 24-digit RIB whose 22nd cleaned digit is
nonzero, re-running the same chunked fold over payload+key yields
`(2·r) mod 97`, where `r` is the payload fold remainder — so it yields 1
exactly when `r = 49`, not always (the key `(97 - r) mod 97` is not the
ISO 7064 `98 - (100·payload mod 97)` construction the claim assumes). -/
theorem c3_refold_amended :
    ∀ rib : String, isValidRIBstr MOROCCAN_BANKS rib = true →
      (ribClean rib).get? 21 ≠ some '0' →
      ∃ r, ribPayloadFold rib = some r ∧
        ribFullFold rib = some ((2 * r) % 97) ∧
        (ribFullFold rib = some 1 ↔ r = 49) := by
  intro rib hvalid hd0
  obtain ⟨hstruct, k, r0, hp, hf0, hk⟩ := isValidRIBstr_inv hvalid
  obtain ⟨hlen, hdig, _hregex, _hfind⟩ := ribStructOk_inv hstruct
  obtain ⟨s, d, k1, k2, hs97, hget, hdd, hk1d, hk2d, hkey, hpay, hfull⟩ :=
    rib24_folds hlen hdig
  have hdne : d ≠ '0' := fun hd => hd0 (by rw [hget, hd])
  have hvd1 : 1 ≤ digitVal d := one_le_digitVal hdd hdne
  have hvd9 : digitVal d ≤ 9 := digitVal_le_9 hdd
  have hnd1 : numDigitsJS (digitVal d) = 1 := numDigitsJS_of_lt_10 (by omega)
  have hr0 : r0 = (s * 10 + digitVal d) % 97 := by
    have heq := Option.some.inj (hf0.symm.trans hpay)
    rw [hnd1] at heq
    simpa using heq
  have hkval : k = digitsToNat [k1, k2] := by
    rw [hkey] at hp
    rw [parseIntJS_digits (by simp) (by simp [hk1d, hk2d])] at hp
    exact (Option.some.inj hp).symm
  have hkv99 : digitsToNat [k1, k2] ≤ 99 := by
    rw [digitsToNat_pair]
    have h1 := digitVal_le_9 hk1d
    have h2 := digitVal_le_9 hk2d
    omega
  have hv3 : digitsToNat [d, k1, k2] = digitVal d * 100 + digitsToNat [k1, k2] := by
    rw [digitsToNat_triple, digitsToNat_pair]
  have h100 : 100 ≤ digitsToNat [d, k1, k2] := by rw [hv3]; omega
  have h1000 : digitsToNat [d, k1, k2] < 1000 := by rw [hv3]; omega
  have hnd3 : numDigitsJS (digitsToNat [d, k1, k2]) = 3 :=
    numDigitsJS_of_hundreds h100 h1000
  have hkvval : digitsToNat [k1, k2] = (97 - r0) % 97 := by rw [← hkval]; exact hk
  have hfull2 : ribFullFold rib = some ((2 * r0) % 97) := by
    rw [hfull, hnd3]
    congr 1
    rw [hv3, hkvval, hr0]
    have harith := c3_key_arith ⟨s, hs97⟩ ⟨digitVal d, by omega⟩ (by simpa using hvd1)
    have hpow : (10 : Nat) ^ 3 = 1000 := by norm_num
    rw [hpow]
    exact harith
  have hr097 : r0 < 97 := by
    rw [hr0]
    exact Nat.mod_lt _ (by omega)
  refine ⟨r0, hf0, hfull2, ?_⟩
  rw [hfull2]
  constructor
  · intro h1
    exact (two_mul_mod_97_eq_one_iff ⟨r0, hr097⟩).mp (Option.some.inj h1)
  · intro h49
    rw [h49]

/-- C3 witness: the amended relation applied at `007000000000000000000149`
(payload remainder 48, re-fold remainder `96 = (2 * 48) % 97`). -/
theorem c3_witness :
    isValidRIBstr MOROCCAN_BANKS "007000000000000000000149" = true ∧
    (ribClean "007000000000000000000149").get? 21 ≠ some '0' ∧
    ∃ r, ribPayloadFold "007000000000000000000149" = some r ∧
      ribFullFold "007000000000000000000149" = some ((2 * r) % 97) ∧
      (ribFullFold "007000000000000000000149" = some 1 ↔ r = 49) :=
  ⟨by rfl, by decide, c3_refold_amended "007000000000000000000149" (by rfl) (by decide)⟩

lemma toUpper_of_digit {c : Char} (h : c.isDigit = true) : c.toUpper = c := by
  obtain ⟨h1, h2⟩ := isDigit_toNat_bounds h
  unfold Char.toUpper
  rw [if_neg (by omega)]

lemma filter_digit_dropWhile (l : List Char) :
    (l.dropWhile (fun ch => !ch.isDigit)).filter Char.isDigit = l.filter Char.isDigit := by
  induction l with
  | nil => rfl
  | cons a rest ih =>
    rw [List.dropWhile_cons]
    cases ha : a.isDigit with
    | true =>
      rw [if_neg (by simp [ha])]
    | false =>
      rw [if_pos (by simp [ha]), ih, List.filter_cons_of_neg (by simp [ha])]

lemma stripICEMarker_filter (l : List Char) :
    (stripICEMarker l).filter Char.isDigit = l.filter Char.isDigit := by
  cases l with
  | nil => rfl
  | cons a t1 =>
    cases t1 with
    | nil => rfl
    | cons b t2 =>
      cases t2 with
      | nil => rfl
      | cons c rest =>
        show (if a.toUpper == 'I' && b.toUpper == 'C' && c.toUpper == 'E' then
            rest.dropWhile (fun ch => !ch.isDigit)
          else a :: b :: c :: rest).filter Char.isDigit = _
        split_ifs with hmark
        · rw [Bool.and_eq_true, Bool.and_eq_true] at hmark
          obtain ⟨⟨hI, hC⟩, hE⟩ := hmark
          have ha : a.isDigit = false := by
            cases hd : a.isDigit with
            | false => rfl
            | true =>
              rw [toUpper_of_digit hd] at hI
              rw [beq_iff_eq.mp hI] at hd
              simp at hd
          have hb : b.isDigit = false := by
            cases hd : b.isDigit with
            | false => rfl
            | true =>
              rw [toUpper_of_digit hd] at hC
              rw [beq_iff_eq.mp hC] at hd
              simp at hd
          have hc : c.isDigit = false := by
            cases hd : c.isDigit with
            | false => rfl
            | true =>
              rw [toUpper_of_digit hd] at hE
              rw [beq_iff_eq.mp hE] at hd
              simp at hd
          rw [filter_digit_dropWhile, List.filter_cons_of_neg (by simp [ha]),
            List.filter_cons_of_neg (by simp [hb]), List.filter_cons_of_neg (by simp [hc])]
        · rfl

/-- `unformatICE` keeps exactly the digits of its input (the `ICE` marker and
everything the first `replace` deletes are non-digits anyway). -/
lemma unformatICE_eq_filter (s : String) :
    unformatICE s = ⟨s.data.filter Char.isDigit⟩ := by
  unfold unformatICE
  rw [stripICEMarker_filter]

/-- The components a successful `validateICE` returns are the fixed-offset
slices of the sanitized string, which is a 15-character digit string. -/
lemma validateICEstr_valid_parts {x : String} (h : (validateICEstr x).isValid = true) :
    (validateICEstr x).components = some
      { company := ⟨(sanitizeICE x).data.take COMPANY_LENGTH⟩,
        establishment := ⟨((sanitizeICE x).data.drop COMPANY_LENGTH).take ESTABLISHMENT_LENGTH⟩,
        control := ⟨((sanitizeICE x).data.drop (COMPANY_LENGTH + ESTABLISHMENT_LENGTH)).take
          (ICE_LENGTH - (COMPANY_LENGTH + ESTABLISHMENT_LENGTH))⟩ } ∧
      (sanitizeICE x).length = 15 ∧ (sanitizeICE x).data.all Char.isDigit = true := by
  simp only [validateICEstr] at h
  split_ifs at h with h1 h2 h3
  · refine ⟨?_, not_not.mp (by simpa [ICE_LENGTH] using h1), ?_⟩
    · simp only [validateICEstr]
      rw [if_neg h1, if_neg h2, if_neg h3]
    · have hr : regexAllDigitsPlus (sanitizeICE x) = true := by
        cases hb : regexAllDigitsPlus (sanitizeICE x) with
        | false => exact absurd (by rw [hb]; rfl) h2
        | true => rfl
      unfold regexAllDigitsPlus at hr
      rw [Bool.and_eq_true] at hr
      exact hr.2

lemma take_split3 (l : List Char) :
    l.take 3 ++ (l.drop 3).take 3 ++ (l.drop 6).take 3 = l.take 9 := by
  have h1 : l.take 3 ++ (l.drop 3).take 3 = l.take 6 := by
    rw [show (6 : Nat) = 3 + 3 from rfl, List.take_add]
  have h2 : l.take 6 ++ (l.drop 6).take 3 = l.take 9 := by
    rw [show (9 : Nat) = 6 + 3 from rfl, List.take_add]
  rw [h1, h2]

lemma split_15 (l : List Char) (h : l.length = 15) :
    l.take 9 ++ (l.drop 9).take 4 ++ (l.drop 13).take 2 = l := by
  have h1 : l.take 9 ++ (l.drop 9).take 4 = l.take 13 := by
    rw [show (13 : Nat) = 9 + 4 from rfl, List.take_add]
  have h2 : l.take 13 ++ (l.drop 13).take 2 = l.take 15 := by
    rw [show (15 : Nat) = 13 + 2 from rfl, List.take_add]
  rw [h1, h2, List.take_of_length_le (by omega)]

/-- C5: for every ICE accepted by `validateICE` and every legal option set
(the resolved separator is one non-digit character; the label and grouping
flags arbitrary), formatting succeeds and `unformatICE` recovers exactly
`sanitizeICE x`. -/
theorem c5_format_roundtrip :
    ∀ (x : String) (options : ICEFormatOptions),
      (validateICEstr x).isValid = true →
      (resolveSeparator options).length = 1 →
      (resolveSeparator options).data.all (fun c => !c.isDigit) = true →
      ∃ f, formatICE x options = Except.ok f ∧ unformatICE f = sanitizeICE x := by
  intro x options hvalid hseplen hsepdig
  obtain ⟨hcomps, hsanlen, hsandig⟩ := validateICEstr_valid_parts hvalid
  set san := (sanitizeICE x).data with hsan
  have hdigAll : ∀ c ∈ san, Char.isDigit c = true := List.all_eq_true.mp hsandig
  have hfil : ∀ l' : List Char, (∀ c ∈ l', c ∈ san) → l'.filter Char.isDigit = l' :=
    fun l' hsub => List.filter_eq_self.mpr (fun a ha => hdigAll a (hsub a ha))
  have hsep0 : (resolveSeparator options).data.filter Char.isDigit = [] := by
    apply List.filter_eq_nil.mpr
    intro a ha
    have := List.all_eq_true.mp hsepdig a ha
    simp at this
    simp [this]
  have hsepchk : (decide ((resolveSeparator options).length > 1) ||
      (resolveSeparator options).data.any Char.isDigit) = false := by
    rw [Bool.or_eq_false_iff]
    constructor
    · simp [hseplen]
    · rw [List.any_eq_false]
      intro a ha
      have := List.all_eq_true.mp hsepdig a ha
      simpa using this
  simp only [formatICE, hvalid, hcomps, Bool.not_true]
  rw [if_neg (by simp)]
  rw [if_neg (by simp only [hsepchk]; simp)]
  refine ⟨_, rfl, ?_⟩
  rw [unformatICE_eq_filter]
  show (⟨_⟩ : String) = sanitizeICE x
  have hmk : sanitizeICE x = (⟨san⟩ : String) := (string_mk_data _).symm
  rw [hmk]
  congr 1
  -- the digit filter of the formatted string is exactly `san`
  have hcompany : ∀ c ∈ san.take COMPANY_LENGTH, c ∈ san := fun c hc => List.mem_of_mem_take hc
  have hest : ∀ c ∈ (san.drop COMPANY_LENGTH).take ESTABLISHMENT_LENGTH, c ∈ san :=
    fun c hc => List.mem_of_mem_drop (List.mem_of_mem_take hc)
  have hctrl : ∀ c ∈ (san.drop (COMPANY_LENGTH + ESTABLISHMENT_LENGTH)).take
      (ICE_LENGTH - (COMPANY_LENGTH + ESTABLISHMENT_LENGTH)), c ∈ san :=
    fun c hc => List.mem_of_mem_drop (List.mem_of_mem_take hc)
  have hsan15 : san.length = 15 := by
    rw [← string_length_data]
    exact hsanlen
  have hff : ¬((false : Bool) = true) := by simp
  cases hg : options.groupCompanyDigits with
  | false =>
    cases hpfx : options.icePrefix with
    | false =>
      rw [if_neg hff, if_neg hff]
      simp only [String.data_append, List.filter_append, hsep0, hfil _ hcompany,
        hfil _ hest, hfil _ hctrl, List.append_nil, List.nil_append]
      show san.take 9 ++ (san.drop 9).take 4 ++ (san.drop 13).take 2 = san
      exact split_15 san hsan15
    | true =>
      rw [if_pos rfl, if_neg hff]
      simp only [String.data_append, List.filter_append, hsep0, hfil _ hcompany,
        hfil _ hest, hfil _ hctrl, List.append_nil, List.nil_append]
      rw [show ("ICE" : String).data.filter Char.isDigit = [] from rfl]
      simp only [List.nil_append]
      show san.take 9 ++ (san.drop 9).take 4 ++ (san.drop 13).take 2 = san
      exact split_15 san hsan15
  | true =>
    have hg1 : ∀ c ∈ (san.take COMPANY_LENGTH).take 3, c ∈ san :=
      fun c hc => List.mem_of_mem_take (List.mem_of_mem_take hc)
    have hg2 : ∀ c ∈ ((san.take COMPANY_LENGTH).drop 3).take 3, c ∈ san :=
      fun c hc => List.mem_of_mem_take (List.mem_of_mem_drop (List.mem_of_mem_take hc))
    have hg3 : ∀ c ∈ ((san.take COMPANY_LENGTH).drop 6).take 3, c ∈ san :=
      fun c hc => List.mem_of_mem_take (List.mem_of_mem_drop (List.mem_of_mem_take hc))
    have hregroup : (san.take 9).take 3 ++ ((san.take 9).drop 3).take 3 ++
        ((san.take 9).drop 6).take 3 = san.take 9 := by
      have h := take_split3 (san.take 9)
      have h9 : (san.take 9).take 9 = san.take 9 := by simp [List.take_take]
      rwa [h9] at h
    cases hpfx : options.icePrefix with
    | false =>
      rw [if_neg hff, if_pos rfl]
      simp only [String.data_append, List.filter_append, hsep0, hfil _ hg1, hfil _ hg2,
        hfil _ hg3, hfil _ hest, hfil _ hctrl, List.append_nil, List.nil_append]
      show (san.take 9).take 3 ++ ((san.take 9).drop 3).take 3 ++
        ((san.take 9).drop 6).take 3 ++ (san.drop 9).take 4 ++ (san.drop 13).take 2 = san
      rw [hregroup]
      exact split_15 san hsan15
    | true =>
      rw [if_pos rfl, if_pos rfl]
      simp only [String.data_append, List.filter_append, hsep0, hfil _ hg1, hfil _ hg2,
        hfil _ hg3, hfil _ hest, hfil _ hctrl, List.append_nil, List.nil_append]
      rw [show ("ICE" : String).data.filter Char.isDigit = [] from rfl]
      simp only [List.nil_append]
      show (san.take 9).take 3 ++ ((san.take 9).drop 3).take 3 ++
        ((san.take 9).drop 6).take 3 ++ (san.drop 9).take 4 ++ (san.drop 13).take 2 = san
      rw [hregroup]
      exact split_15 san hsan15

/-- C5 witness: the round trip applied at the valid ICE `123456789000060`
with hyphen separator, label and grouping switched on. -/
theorem c5_witness :
    (validateICEstr "123456789000060").isValid = true ∧
    (resolveSeparator
      { separator := some "-", icePrefix := true, groupCompanyDigits := true }).length = 1 ∧
    ∃ f, formatICE "123456789000060"
        { separator := some "-", icePrefix := true, groupCompanyDigits := true } =
          Except.ok f ∧
      unformatICE f = sanitizeICE "123456789000060" :=
  ⟨by decide, by decide,
    c5_format_roundtrip "123456789000060"
      { separator := some "-", icePrefix := true, groupCompanyDigits := true }
      (by decide) (by decide) (by decide)⟩

end Zellige
